import Mathlib

/-!
Verification of the analog watch-face renderer (src/app/page.tsx).

The source is TypeScript running on IEEE doubles; the embedding models its
numeric computations over `ℚ` (all constants in the source are decimal
literals, hence exact rationals) and converts to `ℝ` only where the source
multiplies by `Math.PI`.  JavaScript's `%` operator is truncated remainder
(sign of the dividend); it is embedded as `jsMod` below, and the source's
double-mod normalization pattern as `jsModNorm`.
-/

set_option autoImplicit false

/-- Truncation toward zero, the rounding used by the JavaScript `%` operator. -/
def ratTrunc (q : ℚ) : ℤ :=
  if 0 ≤ q then ⌊q⌋ else -⌊-q⌋

/-- JavaScript `x % y`: truncated remainder, sign follows the dividend. -/
def jsMod (x y : ℚ) : ℚ :=
  x - y * (ratTrunc (x / y) : ℚ)

/-- The source's normalization idiom for `((x % y) + y) % y`, which shifts a
possibly negative remainder into `[0, y)`. -/
def jsModNorm (x y : ℚ) : ℚ :=
  jsMod (jsMod x y + y) y

/-- JavaScript `Math.round`: round half toward positive infinity. -/
def jsRound (q : ℚ) : ℤ :=
  ⌊q + 1 / 2⌋

/-- JavaScript `%` on integers (truncated remainder). -/
def jsIntMod (a b : ℤ) : ℤ :=
  if 0 ≤ a then a % b else -((-a) % b)

/-- `LUNAR_CYCLE` from the source (line 5): the synodic lunar period in days. -/
def lunarCycle : ℚ := 29.53059

/-- Epoch milliseconds of `Date.UTC(2026, 0, 19, 0, 0)`, the new-moon
reference used by `getMoonPhaseAngle`, `getMoonPhaseIndex` and `drawMoon`. -/
def refMs : ℚ := 1768780800000

/-- Moon age in days, as computed identically in `getMoonPhaseAngle`,
`getMoonPhaseIndex` and `drawMoon`:
`((days % LUNAR_CYCLE) + LUNAR_CYCLE) % LUNAR_CYCLE` with
`days = (ms - refMs) / 86400000`. -/
def moonAge (ms : ℚ) : ℚ :=
  jsModNorm ((ms - refMs) / 86400000) lunarCycle

/-- `getMoonPhaseImage` (source lines 444-454): stepwise lookup of the moon
image index by fixed day thresholds. -/
def getMoonPhaseImage (a : ℚ) : ℕ :=
  if a < 1.84 then 0
  else if a < 7.38 then 1
  else if a < 9.23 then 2
  else if a < 14.77 then 3
  else if a < 16.61 then 4
  else if a < 22.15 then 5
  else if a < 23.99 then 6
  else 7

/-- `getMoonPhaseIndex` (source lines 98-109): the even-division bucketing
`Math.round((phase / LUNAR_CYCLE) * 8) % 8` applied to the normalized phase.
This function is defined in the source but is not the one that selects the
moon image. -/
def getMoonPhaseIndex (ms : ℚ) : ℤ :=
  jsIntMod (jsRound (moonAge ms / lunarCycle * 8)) 8

/-- Julian Date from epoch milliseconds, `getSiderealAngle` line 113. -/
def jd (ms : ℚ) : ℚ :=
  ms / 86400000 + 2440587.5

/-- Days since the J2000.0 epoch, `getSiderealAngle` line 116. -/
def daysSinceJ2000 (ms : ℚ) : ℚ :=
  jd ms - 2451545.0

/-- Greenwich Mean Sidereal Time in degrees before normalization,
`getSiderealAngle` line 121. -/
def gmstRaw (ms : ℚ) : ℚ :=
  280.46061837 + 360.98564736629 * daysSinceJ2000 ms

/-- GMST normalized to `[0, 360)` degrees, `getSiderealAngle` line 124. -/
def gmstDeg (ms : ℚ) : ℚ :=
  jsModNorm (gmstRaw ms) 360

/-- The fixed longitude constant, `getSiderealAngle` line 129. -/
def longitude : ℚ := -0.1278

/-- Local Sidereal Time in degrees, normalized to `[0, 360)`,
`getSiderealAngle` lines 130-133. -/
def lstDeg (ms : ℚ) : ℚ :=
  jsModNorm (gmstDeg ms + longitude) 360

/-- `getSiderealAngle` (source lines 111-137): result in radians,
`(LST / 360) * Math.PI * 2`. -/
noncomputable def getSiderealAngle (ms : ℚ) : ℝ :=
  ((lstDeg ms / 360 : ℚ) : ℝ) * Real.pi * 2

/-- A decoded image handle; `complete` mirrors `HTMLImageElement.complete`. -/
structure Img where
  complete : Bool
deriving DecidableEq

/-- What `drawMoon` paints inside the clipped aperture on one frame:
the selected phase image, the flat fallback fill, or nothing at all. -/
inductive MoonDraw where
  | image : ℕ → MoonDraw
  | flatFill : MoonDraw
  | skip : MoonDraw
deriving DecidableEq

/-- The guard `moonPhaseImg && moonPhaseImg.complete` of `drawMoon`
(source line 487); a hole in the image array reads as `none`. -/
def handleReady (imgs : List (Option Img)) (idx : ℕ) : Bool :=
  match imgs.getD idx none with
  | some img => img.complete
  | none => false

/-- The branch structure of `drawMoon` (source lines 474-500): if the global
loaded flag is set and the array is non-empty, draw the image selected by
`getMoonPhaseImage` when its handle is present and complete, and otherwise
draw nothing; only when the flag is unset or the array empty fill the
aperture with the flat fallback color.  Total: every state yields exactly one
of the three outcomes, so no frame blocks or throws. -/
def drawMoonSelect (loaded : Bool) (imgs : List (Option Img)) (age : ℚ) : MoonDraw :=
  if loaded = true ∧ 0 < imgs.length then
    if handleReady imgs (getMoonPhaseImage age) then
      MoonDraw.image (getMoonPhaseImage age)
    else
      MoonDraw.skip
  else
    MoonDraw.flatFill

/-- The per-slot outcome of the loading effect (source lines 41-78): a slot
whose fetch-decode chain succeeds holds a complete handle; a slot whose fetch
failed was caught by the per-file `.catch`, mapped to `null`, and left as a
hole in the `images` array. -/
def loadImages (outcomes : List Bool) : List (Option Img) :=
  outcomes.map fun ok => if ok then some ⟨true⟩ else none

/-- The global readiness flag: `setMoonImagesLoaded(true)` fires only when
`loadedCount` reaches 8 (source line 65), i.e. when all eight slots loaded. -/
def moonImagesLoaded (outcomes : List Bool) : Bool :=
  outcomes.count true == 8

/-- Readiness state where the flag is (hypothetically) set but slot 0's
handle is missing. -/
def moonImgsMissingZero : List (Option Img) :=
  [none, some ⟨true⟩, some ⟨true⟩, some ⟨true⟩,
   some ⟨true⟩, some ⟨true⟩, some ⟨true⟩, some ⟨true⟩]

/-- Fetch outcomes where only the first of the eight images failed. -/
def outcomesOneFailed : List Bool :=
  [false, true, true, true, true, true, true, true]

/-- The GMT hour value `g` computed in `drawWatch` (source line 774):
`(now.getHours() + gmtOffset + m / 60) % 24` with JavaScript truncated `%`. -/
def gmtHour (hours : ℕ) (m : ℚ) (gmtOffset : ℤ) : ℚ :=
  jsMod ((hours : ℚ) + (gmtOffset : ℚ) + m / 60) 24

/-- The GMT hand angle `(g * Math.PI) / 12` (source line 782). -/
noncomputable def gmtAngle (hours : ℕ) (m : ℚ) (gmtOffset : ℤ) : ℝ :=
  ((gmtHour hours m gmtOffset : ℚ) : ℝ) * Real.pi / 12

/-- Rotation applied by `drawBreguetHand` (source line 289), used for the
hour and minute hands. -/
noncomputable def breguetHandRotation (angle : ℝ) : ℝ :=
  angle - Real.pi / 2

/-- Rotation applied by `drawSecondsHand` (source line 371). -/
noncomputable def secondsHandRotation (angle : ℝ) : ℝ :=
  angle - Real.pi / 2

/-- Rotation applied by `drawGMTHand` (source line 421). -/
noncomputable def gmtHandRotation (angle : ℝ) : ℝ :=
  angle - Real.pi / 2

/-- Rotation applied by `drawSidereal` to its hand (source line 557):
`getSiderealAngle(date) + Math.PI / 6`, with no 90-degree offset. -/
noncomputable def siderealHandRotation (ms : ℚ) : ℝ :=
  getSiderealAngle ms + Real.pi / 6

/-- Position, relative to the rotation pivot, of a point drawn at distance
`len` along the positive x-axis after the surface is rotated by `rot`
(canvas y grows downward, so `(0, -len)` is straight up). -/
noncomputable def handTip (rot len : ℝ) : ℝ × ℝ :=
  (len * Real.cos rot, len * Real.sin rot)

/-- The breathing scalar of `drawWatch` (source line 711):
`Math.sin(Date.now() / 3000) * 0.5 + 0.5`, `t` in milliseconds. -/
noncomputable def breathe (t : ℝ) : ℝ :=
  Real.sin (t / 3000) * 0.5 + 0.5

/-- Per-baton sparkle value (source line 266), `t` in seconds. -/
noncomputable def batonSparkle (t : ℝ) (i : ℕ) : ℝ :=
  Real.sin (t * 0.25 + (i : ℝ) * 1.3) * 0.5 + 0.5

/-- Alpha of the baton sparkle overlay: `(sparkle - 0.88) * 8` above the
one-sided threshold, exactly zero below it (source lines 267-271). -/
noncomputable def batonSparkleAlpha (t : ℝ) (i : ℕ) : ℝ :=
  if batonSparkle t i > 0.88 then (batonSparkle t i - 0.88) * 8 else 0

/-- First hand-shaft sparkle value in `drawBreguetHand` (source line 342). -/
noncomputable def handSparkle1 (t a : ℝ) : ℝ :=
  max 0 (Real.sin (t * 0.4 + a * 3.7) * 0.5 + 0.5)

/-- Second hand-shaft sparkle value in `drawBreguetHand` (source line 343). -/
noncomputable def handSparkle2 (t a : ℝ) : ℝ :=
  max 0 (Real.sin (t * 0.3 + a * 5.1 + 2.5) * 0.5 + 0.5)

/-- Alpha of the first shaft sparkle (source lines 346-348). -/
noncomputable def handSparkle1Alpha (t a : ℝ) : ℝ :=
  if handSparkle1 t a > 0.85 then (handSparkle1 t a - 0.85) * 6 else 0

/-- Alpha of the second shaft sparkle (source lines 354-356). -/
noncomputable def handSparkle2Alpha (t a : ℝ) : ℝ :=
  if handSparkle2 t a > 0.85 then (handSparkle2 t a - 0.85) * 6 else 0

/-- Seconds-hand sparkle value (source line 403). -/
noncomputable def secondsSparkle (t a : ℝ) : ℝ :=
  Real.sin (t * 0.5 + a * 1.7) * 0.5 + 0.5

/-- Alpha of the seconds-hand sparkle (source lines 404-406). -/
noncomputable def secondsSparkleAlpha (t a : ℝ) : ℝ :=
  if secondsSparkle t a > 0.88 then (secondsSparkle t a - 0.88) * 8 else 0

/-- Guilloche shimmer phase (source line 182), `t` in milliseconds. -/
noncomputable def shimmerPhase (t ang : ℝ) : ℝ :=
  Real.sin (t / 2000 + ang * 2) * 0.5 + 0.5

/-- Crystal reflection intensity `0.08 + breathe * 0.02` (source line 836). -/
noncomputable def reflectionIntensity (b : ℝ) : ℝ :=
  0.08 + b * 0.02

/-- Anti-reflective tint phase of the crystal (source line 855). -/
noncomputable def arTint (t : ℝ) : ℝ :=
  Real.sin (t / 5000) * 0.5 + 0.5

/-- The wall-clock sample a frame reads: epoch milliseconds plus the local
decomposition returned by the `Date` getters used in `drawWatch`. -/
structure WallClock where
  ms : ℚ
  hours : ℕ
  minutes : ℕ
  seconds : ℕ
  millis : ℕ

/-- Asset readiness as `drawMoon` consumes it: the global flag plus the
indexed moon-image handles. -/
structure AssetState where
  moonLoaded : Bool
  moonImgs : List (Option Img)

/-- The derived values one execution of `drawWatch` feeds into its drawing
calls (source lines 706-798). -/
structure FrameRender where
  breatheVal : ℝ
  hourAngle : ℝ
  minuteAngle : ℝ
  secondsAngle : ℝ
  gmtHandAngle : ℝ
  moonDraw : MoonDraw
  siderealRotation : ℝ
  batonSparkleAlphas : List ℝ
  secondsSparkleAlphaVal : ℝ
  reflectionAlpha : ℝ
  arTintVal : ℝ

/-- One execution of `drawWatch` as a pure function.  Besides the inputs the
source actually reads (the wall-clock sample, the GMT offset and the asset
state), the model passes every routine an `entropy` stream standing for any
ambient randomness a frame could consult; the source contains no call to any
random source, so the embedding never reads it. -/
noncomputable def renderFrame (clock : WallClock) (gmtOffset : ℤ) (assets : AssetState)
    (entropy : ℕ → ℝ) : FrameRender :=
  let s : ℚ := (clock.seconds : ℚ) + (clock.millis : ℚ) / 1000
  let m : ℚ := (clock.minutes : ℚ) + s / 60
  let h : ℚ := ((clock.hours % 12 : ℕ) : ℚ) + m / 60
  { breatheVal := breathe ((clock.ms : ℝ))
    hourAngle := ((h : ℚ) : ℝ) * Real.pi / 6
    minuteAngle := ((m : ℚ) : ℝ) * Real.pi / 30
    secondsAngle := ((s : ℚ) : ℝ) * Real.pi / 30
    gmtHandAngle := gmtAngle clock.hours m gmtOffset
    moonDraw := drawMoonSelect assets.moonLoaded assets.moonImgs (moonAge clock.ms)
    siderealRotation := siderealHandRotation clock.ms
    batonSparkleAlphas :=
      (List.range 12).map fun i => batonSparkleAlpha ((clock.ms : ℝ) / 1000) i
    secondsSparkleAlphaVal :=
      secondsSparkleAlpha ((clock.ms : ℝ) / 1000) (((s : ℚ) : ℝ) * Real.pi / 30)
    reflectionAlpha := reflectionIntensity (breathe ((clock.ms : ℝ))) * 1.5
    arTintVal := arTint ((clock.ms : ℝ)) }

theorem ratTrunc_of_nonneg {q : ℚ} (h : 0 ≤ q) : ratTrunc q = ⌊q⌋ :=
  if_pos h

theorem ratTrunc_of_neg {q : ℚ} (h : ¬ 0 ≤ q) : ratTrunc q = -⌊-q⌋ :=
  if_neg h

theorem jsMod_of_nonneg {x y : ℚ} (hy : y ≠ 0) (h : 0 ≤ x / y) :
    jsMod x y = y * Int.fract (x / y) := by
  unfold jsMod Int.fract
  rw [ratTrunc_of_nonneg h]
  field_simp

theorem jsMod_of_neg {x y : ℚ} (hy : y ≠ 0) (h : ¬ 0 ≤ x / y) :
    jsMod x y = -(y * Int.fract (-(x / y))) := by
  unfold jsMod Int.fract
  rw [ratTrunc_of_neg h]
  push_cast
  field_simp
  ring

/-- After one truncated mod and one addition of the modulus, the value is the
fractional-part normal form shifted by 0 or 1 periods. -/
theorem jsMod_add_period (x y : ℚ) (hy : 0 < y) :
    ∃ d : ℤ, jsMod x y + y = y * (Int.fract (x / y) + d) ∧ (d = 0 ∨ d = 1) := by
  have hy0 : y ≠ 0 := ne_of_gt hy
  by_cases h : 0 ≤ x / y
  · exact ⟨1, by rw [jsMod_of_nonneg hy0 h]; push_cast; ring, Or.inr rfl⟩
  · by_cases hz : Int.fract (x / y) = 0
    · refine ⟨1, ?_, Or.inr rfl⟩
      have hz' : Int.fract (-(x / y)) = 0 := Int.fract_neg_eq_zero.2 hz
      rw [jsMod_of_neg hy0 h, hz', hz]
      push_cast
      ring
    · refine ⟨0, ?_, Or.inl rfl⟩
      have hz' : Int.fract (-(x / y)) = 1 - Int.fract (x / y) := Int.fract_neg hz
      rw [jsMod_of_neg hy0 h, hz']
      push_cast
      ring

/-- The source's `((x % y) + y) % y` idiom equals the mathematical
fractional-part normalization into `[0, y)`. -/
theorem jsModNorm_eq_fract (x y : ℚ) (hy : 0 < y) :
    jsModNorm x y = y * Int.fract (x / y) := by
  obtain ⟨d, hd, hd01⟩ := jsMod_add_period x y hy
  have hy0 : y ≠ 0 := ne_of_gt hy
  have hdnn : (0 : ℚ) ≤ Int.fract (x / y) + d := by
    have := Int.fract_nonneg (x / y)
    rcases hd01 with h | h <;> subst h <;> push_cast <;> linarith
  have harg : (y * (Int.fract (x / y) + (d : ℚ))) / y = Int.fract (x / y) + (d : ℚ) :=
    mul_div_cancel_left₀ _ hy0
  unfold jsModNorm
  rw [hd, jsMod_of_nonneg hy0 (by rw [harg]; exact hdnn), harg, Int.fract_add_int,
    Int.fract_fract]

theorem jsModNorm_nonneg (x y : ℚ) (hy : 0 < y) : 0 ≤ jsModNorm x y := by
  rw [jsModNorm_eq_fract x y hy]
  exact mul_nonneg hy.le (Int.fract_nonneg _)

theorem jsModNorm_lt (x y : ℚ) (hy : 0 < y) : jsModNorm x y < y := by
  rw [jsModNorm_eq_fract x y hy]
  calc y * Int.fract (x / y) < y * 1 := by
        exact mul_lt_mul_of_pos_left (Int.fract_lt_one _) hy
    _ = y := mul_one y

/-- Adding one full period to the argument leaves the normalization fixed. -/
theorem jsModNorm_add_self (x y : ℚ) (hy : 0 < y) :
    jsModNorm (x + y) y = jsModNorm x y := by
  rw [jsModNorm_eq_fract _ _ hy, jsModNorm_eq_fract _ _ hy]
  have h1 : (x + y) / y = x / y + ((1 : ℤ) : ℚ) := by
    push_cast
    field_simp
  rw [h1, Int.fract_add_int]

theorem jsMod_lt (x y : ℚ) (hy : 0 < y) : jsMod x y < y := by
  have hy0 : y ≠ 0 := ne_of_gt hy
  by_cases h : 0 ≤ x / y
  · rw [jsMod_of_nonneg hy0 h]
    calc y * Int.fract (x / y) < y * 1 := mul_lt_mul_of_pos_left (Int.fract_lt_one _) hy
      _ = y := mul_one y
  · rw [jsMod_of_neg hy0 h]
    have : 0 ≤ y * Int.fract (-(x / y)) := mul_nonneg hy.le (Int.fract_nonneg _)
    linarith

theorem neg_lt_jsMod (x y : ℚ) (hy : 0 < y) : -y < jsMod x y := by
  have hy0 : y ≠ 0 := ne_of_gt hy
  by_cases h : 0 ≤ x / y
  · rw [jsMod_of_nonneg hy0 h]
    have : 0 ≤ y * Int.fract (x / y) := mul_nonneg hy.le (Int.fract_nonneg _)
    linarith
  · rw [jsMod_of_neg hy0 h]
    have : y * Int.fract (-(x / y)) < y * 1 :=
      mul_lt_mul_of_pos_left (Int.fract_lt_one _) hy
    rw [mul_one] at this
    linarith

/-- Shifting the dividend by the divisor changes a truncated mod by an integer
multiple of the divisor. -/
theorem jsMod_add_right_diff (x y : ℚ) :
    ∃ n : ℤ, jsMod (x + y) y - jsMod x y = n * y := by
  refine ⟨1 - ratTrunc ((x + y) / y) + ratTrunc (x / y), ?_⟩
  unfold jsMod
  push_cast
  ring

/-- The two chained normalizations of `getSiderealAngle` collapse to a single
fractional-part normalization of the longitude-adjusted GMST. -/
theorem lstDeg_eq_fract (ms : ℚ) :
    lstDeg ms = 360 * Int.fract ((gmstRaw ms + longitude) / 360) := by
  unfold lstDeg gmstDeg
  rw [jsModNorm_eq_fract _ _ (by norm_num), jsModNorm_eq_fract _ _ (by norm_num)]
  have h1 : (360 * Int.fract (gmstRaw ms / 360) + longitude) / 360
      = (gmstRaw ms + longitude) / 360 - (⌊gmstRaw ms / 360⌋ : ℚ) := by
    unfold Int.fract
    field_simp
    ring
  rw [h1, Int.fract_sub_int]

theorem lstDeg_nonneg (ms : ℚ) : 0 ≤ lstDeg ms :=
  jsModNorm_nonneg _ _ (by norm_num)

theorem lstDeg_lt (ms : ℚ) : lstDeg ms < 360 :=
  jsModNorm_lt _ _ (by norm_num)

theorem daysSinceJ2000_add_day (ms : ℚ) :
    daysSinceJ2000 (ms + 86400000) = daysSinceJ2000 ms + 1 := by
  unfold daysSinceJ2000 jd
  ring

/-- Advancing the clock by 24 hours advances the normalized sidereal degrees
by `360.98564736629` minus a whole number of turns. -/
theorem lstDeg_drift (ms : ℚ) :
    ∃ k : ℤ, lstDeg (ms + 86400000) - lstDeg ms = 360.98564736629 - 360 * k := by
  rw [lstDeg_eq_fract, lstDeg_eq_fract]
  have h2 : (gmstRaw (ms + 86400000) + longitude) / 360
      = (gmstRaw ms + longitude) / 360 + 360.98564736629 / 360 := by
    unfold gmstRaw
    rw [daysSinceJ2000_add_day]
    ring
  rw [h2]
  refine ⟨⌊(gmstRaw ms + longitude) / 360 + 360.98564736629 / 360⌋
      - ⌊(gmstRaw ms + longitude) / 360⌋, ?_⟩
  unfold Int.fract
  push_cast
  ring

theorem getSiderealAngle_nonneg (ms : ℚ) : 0 ≤ getSiderealAngle ms := by
  unfold getSiderealAngle
  have h0 : (0 : ℝ) ≤ ((lstDeg ms / 360 : ℚ) : ℝ) := by
    rw [Rat.cast_nonneg]
    exact div_nonneg (lstDeg_nonneg ms) (by norm_num)
  have := Real.pi_pos
  nlinarith

theorem getSiderealAngle_lt (ms : ℚ) : getSiderealAngle ms < 2 * Real.pi := by
  unfold getSiderealAngle
  have h1 : ((lstDeg ms / 360 : ℚ) : ℝ) < 1 := by
    have : (lstDeg ms / 360 : ℚ) < 1 := by
      rw [div_lt_one (by norm_num)]
      exact lstDeg_lt ms
    exact_mod_cast this
  have h0 : (0 : ℝ) ≤ ((lstDeg ms / 360 : ℚ) : ℝ) := by
    rw [Rat.cast_nonneg]
    exact div_nonneg (lstDeg_nonneg ms) (by norm_num)
  have := Real.pi_pos
  nlinarith

theorem moonAge_nonneg (ms : ℚ) : 0 ≤ moonAge ms :=
  jsModNorm_nonneg _ _ (by norm_num [lunarCycle])

theorem moonAge_lt (ms : ℚ) : moonAge ms < lunarCycle :=
  jsModNorm_lt _ _ (by norm_num [lunarCycle])

/-- Claim C1: for every moon age in `[0, 29.53059)` the index selecting the
moon image is the stepwise lookup by the fixed day thresholds; the boundary
ages `0, 1.84, 7.38, 9.23, 14.77, 16.61, 22.15, 23.99` give indices `0..7`
and any age inside an interval gives that interval's index; any index the
moon subdial draws is the stepwise one; and the stepwise lookup differs from
the source's even-division bucketing `getMoonPhaseIndex` at some age, so it
is not an even division of the lunar cycle. -/
theorem moonPhaseImage_stepwise :
    ∀ a : ℚ, 0 ≤ a → a < lunarCycle →
      ((a < 1.84 → getMoonPhaseImage a = 0) ∧
       (1.84 ≤ a → a < 7.38 → getMoonPhaseImage a = 1) ∧
       (7.38 ≤ a → a < 9.23 → getMoonPhaseImage a = 2) ∧
       (9.23 ≤ a → a < 14.77 → getMoonPhaseImage a = 3) ∧
       (14.77 ≤ a → a < 16.61 → getMoonPhaseImage a = 4) ∧
       (16.61 ≤ a → a < 22.15 → getMoonPhaseImage a = 5) ∧
       (22.15 ≤ a → a < 23.99 → getMoonPhaseImage a = 6) ∧
       (23.99 ≤ a → getMoonPhaseImage a = 7)) ∧
      (getMoonPhaseImage 0 = 0 ∧ getMoonPhaseImage 1.84 = 1 ∧
       getMoonPhaseImage 7.38 = 2 ∧ getMoonPhaseImage 9.23 = 3 ∧
       getMoonPhaseImage 14.77 = 4 ∧ getMoonPhaseImage 16.61 = 5 ∧
       getMoonPhaseImage 22.15 = 6 ∧ getMoonPhaseImage 23.99 = 7) ∧
      (∀ (loaded : Bool) (imgs : List (Option Img)) (idx : ℕ),
        drawMoonSelect loaded imgs a = MoonDraw.image idx →
        idx = getMoonPhaseImage a) ∧
      (∃ ms : ℚ, (getMoonPhaseImage (moonAge ms) : ℤ) ≠ getMoonPhaseIndex ms) := by
  intro a ha haU
  refine ⟨⟨?_, ?_, ?_, ?_, ?_, ?_, ?_, ?_⟩,
    ⟨by norm_num [getMoonPhaseImage], by norm_num [getMoonPhaseImage],
     by norm_num [getMoonPhaseImage], by norm_num [getMoonPhaseImage],
     by norm_num [getMoonPhaseImage], by norm_num [getMoonPhaseImage],
     by norm_num [getMoonPhaseImage], by norm_num [getMoonPhaseImage]⟩,
    ?_, ?_⟩
  · intro h1
    unfold getMoonPhaseImage
    rw [if_pos h1]
  · intro h1 h2
    unfold getMoonPhaseImage
    split_ifs <;> first | rfl | linarith
  · intro h1 h2
    unfold getMoonPhaseImage
    split_ifs <;> first | rfl | linarith
  · intro h1 h2
    unfold getMoonPhaseImage
    split_ifs <;> first | rfl | linarith
  · intro h1 h2
    unfold getMoonPhaseImage
    split_ifs <;> first | rfl | linarith
  · intro h1 h2
    unfold getMoonPhaseImage
    split_ifs <;> first | rfl | linarith
  · intro h1 h2
    unfold getMoonPhaseImage
    split_ifs <;> first | rfl | linarith
  · intro h1
    unfold getMoonPhaseImage
    split_ifs <;> first | rfl | linarith
  · intro loaded imgs idx h
    unfold drawMoonSelect at h
    split_ifs at h
    simp only [MoonDraw.image.injEq] at h
    exact h.symm
  · refine ⟨refMs + 518400000, ?_⟩
    have hAge : moonAge (refMs + 518400000) = 6 := by
      norm_num [moonAge, refMs, jsModNorm, jsMod, ratTrunc, lunarCycle]
    have h1 : getMoonPhaseImage 6 = 1 := by norm_num [getMoonPhaseImage]
    have h2 : getMoonPhaseIndex (refMs + 518400000) = 2 := by
      unfold getMoonPhaseIndex
      rw [hAge]
      norm_num [jsIntMod, jsRound, lunarCycle]
    rw [hAge, h1, h2]
    norm_num

/-- Witness for C1: an age just below the first boundary maps to index `0`. -/
theorem moonPhaseImage_stepwise_witness :
    (0 : ℚ) ≤ 1.83 ∧ (1.83 : ℚ) < lunarCycle ∧ getMoonPhaseImage 1.83 = 0 :=
  ⟨by norm_num, by norm_num [lunarCycle],
    (moonPhaseImage_stepwise 1.83 (by norm_num)
      (by norm_num [lunarCycle])).1.1 (by norm_num)⟩

/-- Claim C7: the moon age lies in `[0, 29.53059)` for every instant,
including instants before the new-moon reference epoch, and it is periodic
with period `29.53059` days (`29.53059 * 86400000` milliseconds), exactly. -/
theorem moonAge_range_and_period :
    ∀ ms : ℚ, 0 ≤ moonAge ms ∧ moonAge ms < lunarCycle ∧
      moonAge (ms + 29.53059 * 86400000) = moonAge ms := by
  intro ms
  refine ⟨moonAge_nonneg ms, moonAge_lt ms, ?_⟩
  unfold moonAge
  have h1 : (ms + 29.53059 * 86400000 - refMs) / 86400000
      = (ms - refMs) / 86400000 + lunarCycle := by
    unfold lunarCycle
    ring
  rw [h1]
  exact jsModNorm_add_self _ _ (by norm_num [lunarCycle])

/-- Claim C6: the GMT hand angle is
`((localHour + k + minuteFraction/60) mod 24) * (2*pi/24)`, and computing it
with offset `k + 24` gives the same rotation as offset `k`: the two angles
differ by an integer multiple of `2*pi`. -/
theorem gmtAngle_24h_periodicity :
    ∀ (hours : ℕ) (m : ℚ) (k : ℤ),
      gmtAngle hours m k = ((gmtHour hours m k : ℚ) : ℝ) * (2 * Real.pi / 24) ∧
      ∃ n : ℤ, gmtAngle hours m (k + 24) - gmtAngle hours m k = n * (2 * Real.pi) := by
  intro hours m k
  constructor
  · unfold gmtAngle
    ring
  · obtain ⟨n, hn⟩ := jsMod_add_right_diff ((hours : ℚ) + (k : ℚ) + m / 60) 24
    refine ⟨n, ?_⟩
    unfold gmtAngle gmtHour
    have harg : ((hours : ℚ) + ((k + 24 : ℤ) : ℚ) + m / 60)
        = ((hours : ℚ) + (k : ℚ) + m / 60) + 24 := by
      push_cast
      ring
    rw [harg]
    have hq : jsMod (((hours : ℚ) + (k : ℚ) + m / 60) + 24) 24
        = jsMod ((hours : ℚ) + (k : ℚ) + m / 60) 24 + (n : ℚ) * 24 := by
      linarith
    have hcast : ((jsMod (((hours : ℚ) + (k : ℚ) + m / 60) + 24) 24 : ℚ) : ℝ)
        = ((jsMod ((hours : ℚ) + (k : ℚ) + m / 60) 24 : ℚ) : ℝ) + (n : ℝ) * 24 := by
      exact_mod_cast congrArg (fun q : ℚ => (q : ℝ)) hq
    rw [hcast]
    ring

/-- Claim C8: the sidereal angle is exactly the double mod-360 normalization
of the GMST formula adjusted by the longitude constant and converted to
radians; it always lies in `[0, 2*pi)`; and two timestamps 24 hours apart
give angles differing by `0.98564736629` degrees in radians modulo `2*pi`
(a small forward drift, not a full rotation). -/
theorem siderealAngle_formula_range_drift :
    ∀ ms : ℚ,
      getSiderealAngle ms =
        ((jsModNorm (jsModNorm (280.46061837 + 360.98564736629 *
            (ms / 86400000 + 2440587.5 - 2451545.0)) 360 + (-0.1278)) 360 : ℚ) : ℝ)
          / 360 * Real.pi * 2 ∧
      0 ≤ getSiderealAngle ms ∧ getSiderealAngle ms < 2 * Real.pi ∧
      ∃ n : ℤ, getSiderealAngle (ms + 86400000) - getSiderealAngle ms =
        0.98564736629 * Real.pi / 180 + n * (2 * Real.pi) := by
  intro ms
  refine ⟨?_, getSiderealAngle_nonneg ms, getSiderealAngle_lt ms, ?_⟩
  · unfold getSiderealAngle lstDeg gmstDeg gmstRaw daysSinceJ2000 jd longitude
    push_cast
    ring
  · obtain ⟨k, hk⟩ := lstDeg_drift ms
    refine ⟨1 - k, ?_⟩
    unfold getSiderealAngle
    have hq : lstDeg (ms + 86400000)
        = lstDeg ms + (360.98564736629 - 360 * (k : ℚ)) := by
      linarith
    rw [hq]
    push_cast
    ring

/-- Claim C2 counterexample: the sidereal subdial hand does not rotate by its
angle minus `pi/2` plus the correction constant; the source rotates it by
`getSiderealAngle(date) + pi/6` with no 90-degree offset. -/
theorem siderealHand_missing_quarter_turn :
    siderealHandRotation 0 ≠ getSiderealAngle 0 - Real.pi / 2 + Real.pi / 6 := by
  unfold siderealHandRotation
  intro h
  have hpi := Real.pi_pos
  linarith

/-- Claim C2 amended: the hour, minute (Breguet), seconds and GMT hand
routines rotate the surface by the input angle minus `pi/2` before drawing
along the positive axis, so at angle `0` each hand tip points straight up;
the sidereal hand instead rotates by the sidereal angle plus its fixed
`pi/6` correction, with no `pi/2` subtraction. -/
theorem hand_rotations_quarter_turn :
    ∀ (θ : ℝ) (ms : ℚ) (len : ℝ),
      breguetHandRotation θ = θ - Real.pi / 2 ∧
      secondsHandRotation θ = θ - Real.pi / 2 ∧
      gmtHandRotation θ = θ - Real.pi / 2 ∧
      handTip (breguetHandRotation 0) len = (0, -len) ∧
      handTip (secondsHandRotation 0) len = (0, -len) ∧
      handTip (gmtHandRotation 0) len = (0, -len) ∧
      siderealHandRotation ms = getSiderealAngle ms + Real.pi / 6 ∧
      siderealHandRotation ms ≠ getSiderealAngle ms - Real.pi / 2 + Real.pi / 6 := by
  intro θ ms len
  have htip : handTip (0 - Real.pi / 2) len = (0, -len) := by
    unfold handTip
    rw [zero_sub, Real.cos_neg, Real.sin_neg, Real.cos_pi_div_two, Real.sin_pi_div_two]
    norm_num
  refine ⟨rfl, rfl, rfl, htip, htip, htip, rfl, ?_⟩
  unfold siderealHandRotation
  intro h
  have hpi := Real.pi_pos
  linarith

/-- Witness for the amended C2 at concrete inputs. -/
theorem hand_rotations_quarter_turn_witness :
    breguetHandRotation 0 = 0 - Real.pi / 2 ∧
    handTip (breguetHandRotation 0) 1 = (0, -1) ∧
    siderealHandRotation 0 ≠ getSiderealAngle 0 - Real.pi / 2 + Real.pi / 6 :=
  ⟨(hand_rotations_quarter_turn 0 0 1).1,
   (hand_rotations_quarter_turn 0 0 1).2.2.2.1,
   (hand_rotations_quarter_turn 0 0 1).2.2.2.2.2.2.2⟩

/-- Claim C5 counterexample: the GMT hour value is not normalized into
`[0, 24)` — at local hour `0` with offset `-1` the single truncated modulo
yields `-1`. -/
theorem gmtHour_negative :
    gmtHour 0 0 (-1) = -1 ∧ ¬ (0 ≤ gmtHour 0 0 (-1)) := by
  have h : gmtHour 0 0 (-1) = -1 := by
    norm_num [gmtHour, jsMod, ratTrunc]
  rw [h]
  norm_num

/-- Claim C5 amended: for every instant and offset, the derived values are
total and in range: moon age in `[0, 29.53059)`, sidereal angle in
`[0, 2*pi)`, and the GMT hour in `(-24, 24)` — reduced by one truncated
modulo, hence possibly negative, rather than normalized into `[0, 24)`. -/
theorem derived_value_ranges :
    ∀ (ms : ℚ) (hours : ℕ) (m : ℚ) (off : ℤ),
      0 ≤ moonAge ms ∧ moonAge ms < lunarCycle ∧
      0 ≤ getSiderealAngle ms ∧ getSiderealAngle ms < 2 * Real.pi ∧
      -24 < gmtHour hours m off ∧ gmtHour hours m off < 24 := by
  intro ms hours m off
  refine ⟨moonAge_nonneg ms, moonAge_lt ms, getSiderealAngle_nonneg ms,
    getSiderealAngle_lt ms, ?_, ?_⟩
  · unfold gmtHour
    exact neg_lt_jsMod _ _ (by norm_num)
  · unfold gmtHour
    exact jsMod_lt _ _ (by norm_num)

/-- Claim C3 counterexample: with the global flag set but slot 0's handle
missing, the moon subdial draws nothing at all — it does not fall back to
the flat fill. -/
theorem drawMoon_missing_handle :
    drawMoonSelect true moonImgsMissingZero 0 = MoonDraw.skip ∧
    drawMoonSelect true moonImgsMissingZero 0 ≠ MoonDraw.flatFill := by
  have hidx : getMoonPhaseImage 0 = 0 := by norm_num [getMoonPhaseImage]
  have h : drawMoonSelect true moonImgsMissingZero 0 = MoonDraw.skip := by
    unfold drawMoonSelect
    rw [hidx]
    norm_num [moonImgsMissingZero, handleReady]
  rw [h]
  exact ⟨rfl, by decide⟩

/-- Claim C3 amended: the flat-fill fallback happens exactly when the global
loaded flag is unset or the image array empty; when the flag is set but the
selected handle is absent or not complete, the routine skips the image
without filling, still producing a total, non-throwing frame. -/
theorem drawMoon_fallback :
    ∀ (loaded : Bool) (imgs : List (Option Img)) (age : ℚ),
      (drawMoonSelect loaded imgs age = MoonDraw.flatFill ↔
        ¬ (loaded = true ∧ 0 < imgs.length)) ∧
      (loaded = true → 0 < imgs.length →
        handleReady imgs (getMoonPhaseImage age) = false →
        drawMoonSelect loaded imgs age = MoonDraw.skip) ∧
      (loaded = true → 0 < imgs.length →
        handleReady imgs (getMoonPhaseImage age) = true →
        drawMoonSelect loaded imgs age = MoonDraw.image (getMoonPhaseImage age)) := by
  intro loaded imgs age
  refine ⟨?_, ?_, ?_⟩
  · unfold drawMoonSelect
    split_ifs with h1 h2 <;> simp [h1]
  · intro h1 h2 h3
    unfold drawMoonSelect
    rw [if_pos ⟨h1, h2⟩]
    simp [h3]
  · intro h1 h2 h3
    unfold drawMoonSelect
    rw [if_pos ⟨h1, h2⟩]
    simp [h3]

/-- Witness for the amended C3 at a concrete readiness state. -/
theorem drawMoon_fallback_witness :
    handleReady moonImgsMissingZero (getMoonPhaseImage 0) = false ∧
    drawMoonSelect true moonImgsMissingZero 0 = MoonDraw.skip ∧
    drawMoonSelect false moonImgsMissingZero 0 = MoonDraw.flatFill := by
  have hidx : getMoonPhaseImage 0 = 0 := by norm_num [getMoonPhaseImage]
  have hr : handleReady moonImgsMissingZero (getMoonPhaseImage 0) = false := by
    rw [hidx]
    norm_num [handleReady, moonImgsMissingZero]
  exact ⟨hr,
    (drawMoon_fallback true moonImgsMissingZero 0).2.1 rfl
      (by norm_num [moonImgsMissingZero]) hr,
    (drawMoon_fallback false moonImgsMissingZero 0).1.mpr (by simp)⟩

/-- Claim C4 counterexample: after one failed fetch, slot 4's image is loaded
and age 15 selects it, yet the subdial paints the flat fill, not image 4 —
the surviving seven images are never rendered. -/
theorem moonLoad_failure_not_local :
    getMoonPhaseImage 15 = 4 ∧
    (loadImages outcomesOneFailed).getD 4 none = some ⟨true⟩ ∧
    drawMoonSelect (moonImagesLoaded outcomesOneFailed) (loadImages outcomesOneFailed) 15
      = MoonDraw.flatFill ∧
    drawMoonSelect (moonImagesLoaded outcomesOneFailed) (loadImages outcomesOneFailed) 15
      ≠ MoonDraw.image 4 := by
  have hflag : moonImagesLoaded outcomesOneFailed = false := by decide
  have hdraw : drawMoonSelect (moonImagesLoaded outcomesOneFailed)
      (loadImages outcomesOneFailed) 15 = MoonDraw.flatFill := by
    rw [hflag]
    unfold drawMoonSelect
    simp
  refine ⟨by norm_num [getMoonPhaseImage], by decide, hdraw, ?_⟩
  rw [hdraw]
  decide

/-- Claim C4 amended: a single failed fetch is caught locally (the slot is
merely left unset), but the global loaded flag — which requires all eight
slots — then never becomes true, so the moon subdial falls back to the flat
fill for every phase and the other seven images are not rendered. -/
theorem moonLoad_failure_global :
    ∀ outcomes : List Bool, outcomes.length = 8 → false ∈ outcomes →
      moonImagesLoaded outcomes = false ∧
      ∀ age : ℚ, drawMoonSelect (moonImagesLoaded outcomes) (loadImages outcomes) age
        = MoonDraw.flatFill := by
  intro outcomes hlen hmem
  have hcount : outcomes.count true ≠ 8 := by
    intro hc
    rw [← hlen, List.count_eq_length] at hc
    exact Bool.noConfusion (hc false hmem)
  have hflag : moonImagesLoaded outcomes = false := by
    unfold moonImagesLoaded
    exact beq_eq_false_iff_ne.mpr hcount
  refine ⟨hflag, fun age => ?_⟩
  rw [hflag]
  unfold drawMoonSelect
  simp

/-- Witness for the amended C4 at the concrete one-failure outcome list. -/
theorem moonLoad_failure_global_witness :
    outcomesOneFailed.length = 8 ∧ false ∈ outcomesOneFailed ∧
    drawMoonSelect (moonImagesLoaded outcomesOneFailed) (loadImages outcomesOneFailed) 3
      = MoonDraw.flatFill :=
  ⟨by decide, by decide,
    (moonLoad_failure_global outcomesOneFailed (by decide) (by decide)).2 3⟩

/-- A sine scaled by `0.5` and shifted by `0.5` lies in `[0, 1]`. -/
theorem sinUnit_bounds (u : ℝ) :
    0 ≤ Real.sin u * 0.5 + 0.5 ∧ Real.sin u * 0.5 + 0.5 ≤ 1 :=
  ⟨by nlinarith [Real.neg_one_le_sin u], by nlinarith [Real.sin_le_one u]⟩

/-- Claim C9: one frame is a deterministic function of the wall-clock sample,
the GMT offset and the asset-readiness state.  The model hands every frame an
ambient entropy stream as well; since the source consults no random source,
two renders of the same frozen inputs agree whatever the streams are. -/
theorem renderFrame_deterministic :
    ∀ (clock : WallClock) (gmtOffset : ℤ) (assets : AssetState) (e₁ e₂ : ℕ → ℝ),
      renderFrame clock gmtOffset assets e₁ = renderFrame clock gmtOffset assets e₂ :=
  fun _ _ _ _ _ => rfl

/-- Claim C10: every time-driven modulation scalar is bounded: the breathe,
shimmer and sparkle values lie in `[0, 1]`; the baton and seconds-hand
sparkle alphas are at most `(1 - 0.88) * 8 = 0.96`; the hand-shaft sparkle
alphas at most `(1 - 0.85) * 6 = 0.9`; the crystal reflection alpha at most
`0.15`; and the anti-reflective tint alphas stay within `[0, 1]`, so no
drawing call receives an out-of-range opacity. -/
theorem modulation_scalars_bounded :
    ∀ (t a : ℝ) (i : ℕ),
      (0 ≤ breathe t ∧ breathe t ≤ 1) ∧
      (0 ≤ batonSparkle t i ∧ batonSparkle t i ≤ 1) ∧
      (0 ≤ shimmerPhase t a ∧ shimmerPhase t a ≤ 1) ∧
      (0 ≤ secondsSparkle t a ∧ secondsSparkle t a ≤ 1) ∧
      (0 ≤ handSparkle1 t a ∧ handSparkle1 t a ≤ 1) ∧
      (0 ≤ handSparkle2 t a ∧ handSparkle2 t a ≤ 1) ∧
      (0 ≤ batonSparkleAlpha t i ∧ batonSparkleAlpha t i ≤ 0.96) ∧
      (0 ≤ secondsSparkleAlpha t a ∧ secondsSparkleAlpha t a ≤ 0.96) ∧
      (0 ≤ handSparkle1Alpha t a ∧ handSparkle1Alpha t a ≤ 0.9) ∧
      (0 ≤ handSparkle2Alpha t a ∧ handSparkle2Alpha t a ≤ 0.9) ∧
      (0 ≤ reflectionIntensity (breathe t) * 1.5 ∧
        reflectionIntensity (breathe t) * 1.5 ≤ 0.15) ∧
      (0 ≤ 0.015 + arTint t * 0.01 ∧ 0.015 + arTint t * 0.01 ≤ 1) ∧
      (0 ≤ 0.01 + arTint t * 0.008 ∧ 0.01 + arTint t * 0.008 ≤ 1) := by
  intro t a i
  have hbr := sinUnit_bounds (t / 3000)
  have hba := sinUnit_bounds (t * 0.25 + (i : ℝ) * 1.3)
  have hsh := sinUnit_bounds (t / 2000 + a * 2)
  have hse := sinUnit_bounds (t * 0.5 + a * 1.7)
  have hh1 := sinUnit_bounds (t * 0.4 + a * 3.7)
  have hh2 := sinUnit_bounds (t * 0.3 + a * 5.1 + 2.5)
  have har := sinUnit_bounds (t / 5000)
  have hh1b : 0 ≤ handSparkle1 t a ∧ handSparkle1 t a ≤ 1 := by
    unfold handSparkle1
    exact ⟨le_max_left 0 _, max_le (by norm_num) hh1.2⟩
  have hh2b : 0 ≤ handSparkle2 t a ∧ handSparkle2 t a ≤ 1 := by
    unfold handSparkle2
    exact ⟨le_max_left 0 _, max_le (by norm_num) hh2.2⟩
  refine ⟨⟨hbr.1, hbr.2⟩, ⟨hba.1, hba.2⟩, ⟨hsh.1, hsh.2⟩, ⟨hse.1, hse.2⟩,
    hh1b, hh2b, ?_, ?_, ?_, ?_, ?_, ?_, ?_⟩
  · unfold batonSparkleAlpha batonSparkle
    split_ifs with h
    · constructor <;> linarith [hba.1, hba.2]
    · norm_num
  · unfold secondsSparkleAlpha secondsSparkle
    split_ifs with h
    · constructor <;> linarith [hse.1, hse.2]
    · norm_num
  · unfold handSparkle1Alpha
    split_ifs with h
    · constructor <;> linarith [hh1b.1, hh1b.2]
    · norm_num
  · unfold handSparkle2Alpha
    split_ifs with h
    · constructor <;> linarith [hh2b.1, hh2b.2]
    · norm_num
  · unfold reflectionIntensity breathe
    constructor <;> linarith [hbr.1, hbr.2]
  · unfold arTint
    constructor <;> linarith [har.1, har.2]
  · unfold arTint
    constructor <;> linarith [har.1, har.2]
